import Mathlib

/-!
Verification of the Tic Tac Toe game logic of this repository
(source: src/frontend/src/App.js).

The JavaScript is shallowly embedded as follows:
* the strings "X" and "O" occupying a cell become the inductive `Mark`;
* a board cell (null or a mark) becomes `Cell := Option Mark`;
* a JS board array becomes a `List Cell` (its length is not fixed by the
  type, just as a JS array's is not; the code itself checks length 9 where
  it matters), and reading `board[i]` becomes `board.getD i none`, which
  yields `none` out of range exactly as JS yields the falsy `undefined`;
* the React component state set by `setGame` becomes the structure
  `GameState`; an event handler that returns without calling `setGame`
  becomes a function returning the state unchanged;
* `new Date().toISOString()` becomes an explicit `now : String` argument;
* the `fetch`-based `loadLatest` becomes a total function over an explicit
  outcome datatype (`FetchOutcome`): the surrounding `try`/`catch` means no
  error ever escapes, which the embedding renders as totality with an
  `Option` result.
-/

/-- A player's mark: the JS strings "X" and "O". -/
inductive Mark where
  | X
  | O
deriving DecidableEq, Repr, Fintype

/-- The string the JS code stores for a mark. -/
def Mark.toStr : Mark → String
  | .X => "X"
  | .O => "O"

/-- One cell of the board: JS `null` or a mark. -/
abbrev Cell := Option Mark

/-- The React component's game state (App.js, `createEmptyGameState` and the
`setGame` call sites). -/
structure GameState where
  board : List Cell
  nextPlayer : Mark
  status : String
  winner : Option Mark
  isDraw : Bool
  moves : Nat
  updatedAt : String
deriving DecidableEq, Repr

/-- App.js lines 7-17: fresh empty game state. `now` stands for
`new Date().toISOString()`. -/
def createEmptyGameState (now : String) : GameState :=
  { board := List.replicate 9 none
    nextPlayer := Mark.X
    status := "Next player: X"
    winner := none
    isDraw := false
    moves := 0
    updatedAt := now }

/-- App.js lines 25-34: the 8 fixed winning triples, in source order
(3 rows, then 3 columns, then 2 diagonals). -/
def lines : List (Nat × Nat × Nat) :=
  [(0, 1, 2), (3, 4, 5), (6, 7, 8),
   (0, 3, 6), (1, 4, 7), (2, 5, 8),
   (0, 4, 8), (2, 4, 6)]

/-- App.js lines 36-39, body of the `for` loop: the check of a single line
`[a, b, c]`. `const v = board[a]; if (v && v === board[b] && v === board[c])
return v;` -/
def lineWinner (board : List Cell) (l : Nat × Nat × Nat) : Option Mark :=
  match board.getD l.1 none with
  | none => none
  | some v =>
      if board.getD l.2.1 none = some v ∧ board.getD l.2.2 none = some v then
        some v
      else
        none

/-- App.js lines 24-41: return the value of the first line whose three cells
hold the same non-null mark, else null. The `for` loop with early `return`
is `List.findSome?` over the lines in source order. -/
def calculateWinner (board : List Cell) : Option Mark :=
  lines.findSome? (lineWinner board)

/-- App.js line 48: `board.filter(Boolean).length` — the count of non-null
cells. -/
def countMoves (board : List Cell) : Nat :=
  (board.filter (fun c => c.isSome)).length

/-- The record returned by `deriveStatus` (App.js lines 51-75). -/
structure Derived where
  winner : Option Mark
  isDraw : Bool
  moves : Nat
  status : String
deriving DecidableEq, Repr

/-- App.js lines 46-75: derived status fields from board + turn.
`isDraw = !winner && moves === 9`; the `if (winner)` / `if (isDraw)` /
`else` chain becomes the match and nested if. -/
def deriveStatus (board : List Cell) (nextPlayer : Mark) : Derived :=
  let winner := calculateWinner board
  let moves := countMoves board
  match winner with
  | some w =>
      { winner := some w, isDraw := false, moves := moves,
        status := "Winner: " ++ w.toStr }
  | none =>
      if moves = 9 then
        { winner := none, isDraw := true, moves := moves, status := "Draw" }
      else
        { winner := none, isDraw := false, moves := moves,
          status := "Next player: " ++ nextPlayer.toStr }

/-- App.js line 199: `const canPlay = !game.winner && !game.isDraw;` -/
def canPlay (g : GameState) : Bool :=
  g.winner.isNone && !g.isDraw

/-- App.js lines 202-222: click handler. The two early `return`s (game over,
or cell occupied) leave the component state unchanged; otherwise the mark is
placed, the turn flipped, and `setGame` installs the freshly derived state. -/
def handleSquareClick (g : GameState) (index : Nat) (now : String) : GameState :=
  if !(canPlay g) then g
  else if (g.board.getD index none).isSome then g
  else
    let nextBoard := g.board.set index (some g.nextPlayer)
    let nextPlayer := if g.nextPlayer = Mark.X then Mark.O else Mark.X
    let derived := deriveStatus nextBoard nextPlayer
    { board := nextBoard
      nextPlayer := nextPlayer
      status := derived.status
      winner := derived.winner
      isDraw := derived.isDraw
      moves := derived.moves
      updatedAt := now }

/-- App.js lines 225-228: reset ignores the current state and installs a
fresh empty state. -/
def handleReset (_g : GameState) (now : String) : GameState :=
  createEmptyGameState now

/-- A JSON snapshot as consumed by the load effect (App.js lines 154-166).
Each `Option` field is `none` when the JSON field is missing, `null`, or of
the wrong shape for the corresponding JS test:
* `board`: `some b` only when the field is an array (`Array.isArray`);
* `next_player`: the field's string value (`none` for missing/non-string
  values, which like any string other than "O" fail the `=== "O"` test);
* `winner`: `none` when nullish, in which case `??` falls back to derived;
* `is_draw`: `none` when nullish (the `??` fallback), else its value;
* `moves`: `some n` only when `Number.isFinite(loaded.moves)`;
* `updated_at`: the field's string value if any. -/
structure LoadedRaw where
  board : Option (List Cell)
  next_player : Option String
  winner : Option Mark
  is_draw : Option Bool
  moves : Option Nat
  updated_at : Option String
deriving DecidableEq, Repr

/-- App.js lines 155-166: build the new component state from a loaded
snapshot whose board `b` already passed the length-9 guard.
`nextPlayer = loaded.next_player === "O" ? "O" : "X"`;
`winner: loaded.winner ?? derived.winner`;
`isDraw: Boolean(loaded.is_draw ?? derived.isDraw)`;
`moves: Number.isFinite(loaded.moves) ? loaded.moves : derived.moves`;
`updatedAt: loaded.updated_at || now` (JS `||`: the empty string is falsy). -/
def applySnapshot (l : LoadedRaw) (b : List Cell) (now : String) : GameState :=
  let nextPlayer := if l.next_player = some "O" then Mark.O else Mark.X
  let derived := deriveStatus b nextPlayer
  { board := b
    nextPlayer := nextPlayer
    status := derived.status
    winner := match l.winner with
      | some w => some w
      | none => derived.winner
    isDraw := match l.is_draw with
      | some d => d
      | none => derived.isDraw
    moves := match l.moves with
      | some n => n
      | none => derived.moves
    updatedAt := match l.updated_at with
      | some s => if s = "" then now else s
      | none => now }

/-- App.js lines 148-171: the whole load effect on the game state. The guard
`loaded && Array.isArray(loaded.board) && loaded.board.length === 9` admits
the snapshot; every other outcome leaves the game state unchanged (the
`else` branch only touches the API status pill). -/
def loadEffect (loaded : Option LoadedRaw) (g : GameState) (now : String) :
    GameState :=
  match loaded with
  | none => g
  | some l =>
      match l.board with
      | none => g
      | some b => if b.length = 9 then applySnapshot l b now else g

/-- Outcome of `res.json()` in the embedding: the promise rejects (`jerr`,
caught by the surrounding `catch`), or parses to a value — possibly JSON
`null` (`jok none`). -/
inductive JsonOutcome where
  | jerr
  | jok (v : Option LoadedRaw)
deriving DecidableEq, Repr

/-- Outcome of the `fetch` call in the embedding: a thrown network error
(`ferr`), or a response with its `ok` flag and body. -/
inductive FetchOutcome where
  | ferr
  | fresp (ok : Bool) (j : JsonOutcome)
deriving DecidableEq, Repr

/-- App.js lines 92-106: `loadLatest`. Disabled backend returns null;
a thrown fetch or json error is caught and returns null; a non-ok response
returns null; otherwise the parsed body. Totality of this function is the
embedding of "never propagates an error to its caller". -/
def loadLatest (enabled : Bool) (f : FetchOutcome) : Option LoadedRaw :=
  if !enabled then none
  else
    match f with
    | .ferr => none
    | .fresp ok j =>
        if !ok then none
        else
          match j with
          | .jerr => none
          | .jok v => v

/-- Spec-side predicate: line `l` holds three equal non-empty marks `m`
("three equal non-empty marks in one of the 8 lines"). -/
def winsWith (board : List Cell) (l : Nat × Nat × Nat) (m : Mark) : Prop :=
  board.getD l.1 none = some m ∧ board.getD l.2.1 none = some m ∧
    board.getD l.2.2 none = some m

instance (board : List Cell) (l : Nat × Nat × Nat) (m : Mark) :
    Decidable (winsWith board l m) := by
  unfold winsWith
  infer_instance

/-- Spec-side definition, following the spec's words for the evaluator:
"checks the 8 fixed triples (3 rows, 3 columns, 2 diagonals) for three equal
non-empty marks; returns the first matching mark or none" — the mark of the
first triple, in the fixed order, whose three cells hold the same non-empty
mark. -/
def specFirstWin (board : List Cell) : Option Mark :=
  (lines.find? (fun l => decide (∃ m, winsWith board l m))).bind
    (fun l => board.getD l.1 none)

/-- The spec's invariant on a game state: winner and isDraw never both set,
winner and isDraw equal the values derivable purely from the board, and
moves equals the count of non-empty cells. -/
def Invariant (g : GameState) : Prop :=
  ¬(g.winner.isSome = true ∧ g.isDraw = true) ∧
    g.winner = calculateWinner g.board ∧
    (g.isDraw = true ↔ calculateWinner g.board = none ∧ countMoves g.board = 9) ∧
    g.moves = countMoves g.board

instance (g : GameState) : Decidable (Invariant g) := by
  unfold Invariant
  infer_instance

/-- The game states reachable through the local operations, together with
applying a loaded snapshot that carries no winner/is_draw/moves fields of
its own (so that all derived fields come from `deriveStatus`). -/
inductive ReachableA : GameState → Prop where
  | init (now : String) : ReachableA (createEmptyGameState now)
  | click (g : GameState) (i : Nat) (now : String) :
      ReachableA g → ReachableA (handleSquareClick g i now)
  | reset (g : GameState) (now : String) :
      ReachableA g → ReachableA (handleReset g now)
  | load (l : LoadedRaw) (b : List Cell) (now : String) :
      l.board = some b → b.length = 9 →
      l.winner = none → l.is_draw = none → l.moves = none →
      ReachableA (applySnapshot l b now)

/-! ### Helper lemmas -/

lemma lineWinner_eq_some_iff {board : List Cell} {l : Nat × Nat × Nat}
    {m : Mark} : lineWinner board l = some m ↔ winsWith board l m := by
  unfold lineWinner winsWith
  cases h : board.getD l.1 none with
  | none => simp [h]
  | some v =>
    simp only [h]
    split
    · rename_i hbc
      constructor
      · intro hvm
        injection hvm with hvm
        subst hvm
        exact ⟨rfl, hbc.1, hbc.2⟩
      · rintro ⟨h1, _, _⟩
        injection h1 with h1
        rw [h1]
    · rename_i hbc
      constructor
      · intro hno
        exact Option.noConfusion hno
      · rintro ⟨h1, h2, h3⟩
        injection h1 with h1
        subst h1
        exact absurd ⟨h2, h3⟩ hbc

lemma lineWinner_eq_none_iff {board : List Cell} {l : Nat × Nat × Nat} :
    lineWinner board l = none ↔ ∀ m, ¬ winsWith board l m := by
  constructor
  · intro hnone m hw
    rw [lineWinner_eq_some_iff.mpr hw] at hnone
    cases hnone
  · intro h
    cases hl : lineWinner board l with
    | none => rfl
    | some m => exact absurd (lineWinner_eq_some_iff.mp hl) (h m)

lemma findSome?_lineWinner_spec (board : List Cell)
    (ls : List (Nat × Nat × Nat)) :
    ls.findSome? (lineWinner board) =
      (ls.find? (fun l => decide (∃ m, winsWith board l m))).bind
        (fun l => board.getD l.1 none) := by
  induction ls with
  | nil => rfl
  | cons l ls ih =>
    cases hl : lineWinner board l with
    | some m =>
      have hw : winsWith board l m := lineWinner_eq_some_iff.mp hl
      have hp : decide (∃ m, winsWith board l m) = true := decide_eq_true ⟨m, hw⟩
      rw [List.findSome?_cons, hl,
        @List.find?_cons_of_pos _ (fun l => decide (∃ m, winsWith board l m)) l ls hp,
        Option.some_bind]
      exact hw.1.symm
    | none =>
      have hnp : ¬ decide (∃ m, winsWith board l m) = true := by
        simp only [decide_eq_true_eq]
        rintro ⟨m, hw⟩
        exact absurd hw (lineWinner_eq_none_iff.mp hl m)
      rw [List.findSome?_cons, hl,
        @List.find?_cons_of_neg _ (fun l => decide (∃ m, winsWith board l m)) l ls hnp]
      exact ih

lemma calculateWinner_some_exists {board : List Cell} {m : Mark}
    (h : calculateWinner board = some m) :
    ∃ l ∈ lines, winsWith board l m := by
  rw [calculateWinner, findSome?_lineWinner_spec] at h
  cases hf : lines.find? (fun l => decide (∃ m, winsWith board l m)) with
  | none =>
    rw [hf, Option.none_bind] at h
    cases h
  | some l =>
    rw [hf, Option.some_bind] at h
    have hmem := List.mem_of_find?_eq_some hf
    have hp := List.find?_some hf
    simp only [decide_eq_true_eq] at hp
    obtain ⟨m', hw'⟩ := hp
    have h1 := hw'.1
    rw [h1] at h
    injection h with h
    exact ⟨l, hmem, h ▸ hw'⟩

lemma calculateWinner_none_no_win {board : List Cell}
    (h : calculateWinner board = none) :
    ∀ l ∈ lines, ∀ m, ¬ winsWith board l m := by
  intro l hl m hw
  rw [calculateWinner, findSome?_lineWinner_spec] at h
  cases hf : lines.find? (fun l => decide (∃ m, winsWith board l m)) with
  | some l' =>
    rw [hf, Option.some_bind] at h
    have hp := List.find?_some hf
    simp only [decide_eq_true_eq] at hp
    obtain ⟨m', hw'⟩ := hp
    rw [hw'.1] at h
    cases h
  | none =>
    rw [List.find?_eq_none] at hf
    have hl' := hf l hl
    simp only [decide_eq_true_eq] at hl'
    exact hl' ⟨m, hw⟩

lemma getD_set_self {α : Type} (l : List α) (i : Nat) (a d : α)
    (h : i < l.length) : (l.set i a).getD i d = a := by
  induction l generalizing i with
  | nil => simp at h
  | cons b t ih =>
    cases i with
    | zero => rfl
    | succ j =>
      have hj : j < t.length := by
        simp [List.length_cons] at h
        omega
      show (t.set j a).getD j d = a
      exact ih j hj

lemma deriveStatus_consistent (b : List Cell) (p : Mark) :
    (deriveStatus b p).winner = calculateWinner b ∧
      ((deriveStatus b p).isDraw = true ↔
        calculateWinner b = none ∧ countMoves b = 9) ∧
      (deriveStatus b p).moves = countMoves b ∧
      ¬((deriveStatus b p).winner.isSome = true ∧
        (deriveStatus b p).isDraw = true) := by
  cases hw : calculateWinner b with
  | some w => simp [deriveStatus, hw]
  | none => by_cases hm : countMoves b = 9 <;> simp [deriveStatus, hw, hm]

lemma invariant_mk_derived (b : List Cell) (p np : Mark) (s u : String) :
    Invariant
      { board := b
        nextPlayer := np
        status := s
        winner := (deriveStatus b p).winner
        isDraw := (deriveStatus b p).isDraw
        moves := (deriveStatus b p).moves
        updatedAt := u } := by
  obtain ⟨h1, h2, h3, h4⟩ := deriveStatus_consistent b p
  exact ⟨h4, h1, h2, h3⟩

lemma invariant_empty (now : String) :
    Invariant (createEmptyGameState now) := by
  unfold Invariant createEmptyGameState
  dsimp only
  decide

/-- Flip of the turn, as the claims word it ("flips nextPlayer between X
and O"); `handleSquareClick` computes it with the source's ternary. -/
def otherMark : Mark → Mark
  | .X => .O
  | .O => .X

/-! ### Claim theorems -/

/-- C7: `calculateWinner` examines exactly the 8 fixed triples in the fixed
order rows (0,1,2),(3,4,5),(6,7,8), then columns (0,3,6),(1,4,7),(2,5,8),
then diagonals (0,4,8),(2,4,6) — the list `lines` — and returns the mark of
the first triple in that order whose three cells hold the same non-empty
mark, or none when no triple does: it coincides with the spec-side
first-match function `specFirstWin`. -/
theorem calculateWinner_eq_specFirstWin (board : List Cell) :
    calculateWinner board = specFirstWin board :=
  findSome?_lineWinner_spec board lines

/-- C1 (amended): for every board holding three equal non-empty marks in at
least one of the 8 lines, when every winning line holds the same mark `m`
(true of every board arising in actual play), `calculateWinner` returns
`m`. -/
theorem calculateWinner_unique_winning_mark (board : List Cell) (m : Mark)
    (hex : ∃ l ∈ lines, winsWith board l m)
    (huniq : ∀ l ∈ lines, ∀ m', winsWith board l m' → m' = m) :
    calculateWinner board = some m := by
  cases hcw : calculateWinner board with
  | none =>
    obtain ⟨l, hl, hwin⟩ := hex
    exact absurd hwin (calculateWinner_none_no_win hcw l hl m)
  | some m' =>
    obtain ⟨l, hl, hwin⟩ := calculateWinner_some_exists hcw
    rw [huniq l hl m' hwin]

/-- A board with two winning lines of different marks: X on the top row and
O on the middle row. Unreachable in play, but a legal input to
`calculateWinner`. -/
def doubleWinBoard : List Cell :=
  [some Mark.X, some Mark.X, some Mark.X,
   some Mark.O, some Mark.O, some Mark.O,
   none, none, none]

/-- C1, counterexample to the claim as stated: on `doubleWinBoard` the line
(3,4,5) — one of the 8 lines — holds three equal non-empty O marks, yet
`calculateWinner` does not return O (it returns X, the mark of the earlier
line (0,1,2)). -/
theorem calculateWinner_not_every_winning_mark :
    (3, 4, 5) ∈ lines ∧ winsWith doubleWinBoard (3, 4, 5) Mark.O ∧
      ¬ calculateWinner doubleWinBoard = some Mark.O := by
  decide

/-- A board with X winning the top row and no other complete line. -/
def topRowBoard : List Cell :=
  [some Mark.X, some Mark.X, some Mark.X,
   some Mark.O, some Mark.O, none,
   none, none, none]

/-- Witness for C1's amended theorem at a concrete input. -/
theorem calculateWinner_unique_winning_mark_witness :
    calculateWinner topRowBoard = some Mark.X :=
  calculateWinner_unique_winning_mark topRowBoard Mark.X (by decide)
    (by decide)

/-- C2: when the clicked cell is already occupied, or the state has a
winner, or isDraw is set, `handleSquareClick` leaves the entire game state
unchanged (it is a total function, so no error is raised — the JS handler
just returns without calling `setGame`). -/
theorem handleSquareClick_invalid_noop (g : GameState) (i : Nat)
    (now : String)
    (h : (g.board.getD i none).isSome = true ∨ g.winner.isSome = true ∨
      g.isDraw = true) :
    handleSquareClick g i now = g := by
  unfold handleSquareClick
  rcases h with h | h | h
  · rw [List.getD_eq_getElem?_getD] at h
    simp [h]
  · have hc : canPlay g = false := by
      cases hwin : g.winner with
      | none => simp [hwin] at h
      | some w => simp [canPlay, hwin]
    simp [hc]
  · have hc : canPlay g = false := by simp [canPlay, h]
    simp [hc]

/-- A mid-game position already won by X. -/
def wonState : GameState :=
  { board := [some Mark.X, some Mark.X, some Mark.X,
      some Mark.O, some Mark.O, none, none, none, none]
    nextPlayer := Mark.O
    status := "Winner: X"
    winner := some Mark.X
    isDraw := false
    moves := 5
    updatedAt := "t0" }

/-- Witness for C2's theorem at a concrete input: a click on an empty cell
of a finished game changes nothing. -/
theorem handleSquareClick_invalid_noop_witness :
    handleSquareClick wonState 5 "t1" = wonState :=
  handleSquareClick_invalid_noop wonState 5 "t1"
    (Or.inr (Or.inl (by decide)))

/-- C3: on a valid move (no winner, no draw, empty target cell),
`handleSquareClick` places the current `nextPlayer`'s mark in that cell,
flips `nextPlayer` between X and O, recomputes `winner`, `isDraw`, `moves`
and `status` from the new board via `deriveStatus`, and stamps the new
time. -/
theorem handleSquareClick_valid_move (g : GameState) (i : Nat) (now : String)
    (hw : g.winner = none) (hd : g.isDraw = false)
    (hi : i < g.board.length) (hc : g.board.getD i none = none) :
    handleSquareClick g i now =
      { board := g.board.set i (some g.nextPlayer)
        nextPlayer := otherMark g.nextPlayer
        status := (deriveStatus (g.board.set i (some g.nextPlayer))
          (otherMark g.nextPlayer)).status
        winner := (deriveStatus (g.board.set i (some g.nextPlayer))
          (otherMark g.nextPlayer)).winner
        isDraw := (deriveStatus (g.board.set i (some g.nextPlayer))
          (otherMark g.nextPlayer)).isDraw
        moves := (deriveStatus (g.board.set i (some g.nextPlayer))
          (otherMark g.nextPlayer)).moves
        updatedAt := now } ∧
      (handleSquareClick g i now).board.getD i none = some g.nextPlayer := by
  have hcp : canPlay g = true := by simp [canPlay, hw, hd]
  have hother : (if g.nextPlayer = Mark.X then Mark.O else Mark.X) =
      otherMark g.nextPlayer := by
    cases g.nextPlayer <;> rfl
  have hc' : g.board[i]?.getD none = none := by
    rw [← List.getD_eq_getElem?_getD]
    exact hc
  have heq : handleSquareClick g i now =
      { board := g.board.set i (some g.nextPlayer)
        nextPlayer := otherMark g.nextPlayer
        status := (deriveStatus (g.board.set i (some g.nextPlayer))
          (otherMark g.nextPlayer)).status
        winner := (deriveStatus (g.board.set i (some g.nextPlayer))
          (otherMark g.nextPlayer)).winner
        isDraw := (deriveStatus (g.board.set i (some g.nextPlayer))
          (otherMark g.nextPlayer)).isDraw
        moves := (deriveStatus (g.board.set i (some g.nextPlayer))
          (otherMark g.nextPlayer)).moves
        updatedAt := now } := by
    simp [handleSquareClick, hcp, hc', hother]
  refine ⟨heq, ?_⟩
  rw [heq]
  exact getD_set_self g.board i (some g.nextPlayer) none hi

/-- Witness for C3's theorem: X's first move into cell 0 of the fresh
board. -/
theorem handleSquareClick_valid_move_witness :
    handleSquareClick (createEmptyGameState "a") 0 "b" =
      { board := (createEmptyGameState "a").board.set 0
          (some (createEmptyGameState "a").nextPlayer)
        nextPlayer := otherMark (createEmptyGameState "a").nextPlayer
        status := (deriveStatus ((createEmptyGameState "a").board.set 0
          (some (createEmptyGameState "a").nextPlayer))
          (otherMark (createEmptyGameState "a").nextPlayer)).status
        winner := (deriveStatus ((createEmptyGameState "a").board.set 0
          (some (createEmptyGameState "a").nextPlayer))
          (otherMark (createEmptyGameState "a").nextPlayer)).winner
        isDraw := (deriveStatus ((createEmptyGameState "a").board.set 0
          (some (createEmptyGameState "a").nextPlayer))
          (otherMark (createEmptyGameState "a").nextPlayer)).isDraw
        moves := (deriveStatus ((createEmptyGameState "a").board.set 0
          (some (createEmptyGameState "a").nextPlayer))
          (otherMark (createEmptyGameState "a").nextPlayer)).moves
        updatedAt := "b" } ∧
      (handleSquareClick (createEmptyGameState "a") 0 "b").board.getD 0
          none =
        some (createEmptyGameState "a").nextPlayer :=
  handleSquareClick_valid_move (createEmptyGameState "a") 0 "b" rfl rfl
    (by decide) rfl

/-- C4: for a 9-cell board with all cells non-empty and no winner,
`deriveStatus` reports a draw: `winner = none`, `isDraw = true`, and the
status text "Draw". -/
theorem deriveStatus_full_board_draw (b : List Cell) (p : Mark)
    (h9 : b.length = 9) (hall : ∀ c ∈ b, c.isSome = true)
    (hw : calculateWinner b = none) :
    (deriveStatus b p).winner = none ∧ (deriveStatus b p).isDraw = true ∧
      (deriveStatus b p).status = "Draw" := by
  have hm : countMoves b = 9 := by
    unfold countMoves
    rw [List.filter_eq_self.mpr hall, h9]
  simp [deriveStatus, hw, hm]

/-- A full board with no winning line. -/
def drawBoard : List Cell :=
  [some Mark.X, some Mark.O, some Mark.X,
   some Mark.X, some Mark.O, some Mark.X,
   some Mark.O, some Mark.X, some Mark.O]

/-- Witness for C4's theorem at a concrete full drawn board. -/
theorem deriveStatus_full_board_draw_witness :
    (deriveStatus drawBoard Mark.X).winner = none ∧
      (deriveStatus drawBoard Mark.X).isDraw = true ∧
      (deriveStatus drawBoard Mark.X).status = "Draw" :=
  deriveStatus_full_board_draw drawBoard Mark.X (by decide) (by decide)
    (by decide)

/-- C5: `handleReset`, invoked from any game state, produces the state with
all 9 cells empty, next player X, no winner, no draw, zero moves, and the
status text "Next player: X". -/
theorem handleReset_fresh_state (g : GameState) (now : String) :
    handleReset g now =
      { board := List.replicate 9 none
        nextPlayer := Mark.X
        status := "Next player: X"
        winner := none
        isDraw := false
        moves := 0
        updatedAt := now } :=
  rfl

/-- C6 (amended): the initial state, and every state produced from a
reachable state by `handleSquareClick` or `handleReset`, satisfies the
invariant (winner and isDraw never both set, winner and isDraw derivable
purely from the board, moves equal to the count of non-empty cells); so
does applying a successfully loaded snapshot whose own `winner`, `is_draw`
and `moves` fields are all null/absent, so that every derived field comes
from `deriveStatus`. (A snapshot carrying its own values for those fields
is installed verbatim and can violate the invariant — see the
counterexample.) -/
theorem reachable_invariant (g : GameState) (h : ReachableA g) :
    Invariant g := by
  induction h with
  | init now => exact invariant_empty now
  | click g i now _ ih =>
    unfold handleSquareClick
    split
    · exact ih
    · split
      · exact ih
      · exact invariant_mk_derived _ _ _ _ _
  | reset g now _ _ => exact invariant_empty now
  | load l b now hb h9 hw hd hm =>
    simp only [applySnapshot, hw, hd, hm]
    exact invariant_mk_derived _ _ _ _ _

/-- Witness for C6's amended theorem: the initial state satisfies the
invariant. -/
theorem reachable_invariant_witness :
    Invariant (createEmptyGameState "t") :=
  reachable_invariant (createEmptyGameState "t") (ReachableA.init "t")

/-- A syntactically well-formed snapshot (board of length 9) whose own
winner/is_draw/moves fields contradict its board. -/
def badSnap : LoadedRaw :=
  { board := some (List.replicate 9 none)
    next_player := none
    winner := some Mark.X
    is_draw := some true
    moves := some 5
    updated_at := none }

/-- C6, counterexample to the claim as stated: `badSnap` passes the load
guard (its board is an array of length 9), so the load effect replaces the
state with it — and the resulting reachable state has winner X and isDraw
true on an empty board with moves 5, violating every part of the
invariant. -/
theorem loaded_snapshot_breaks_invariant :
    loadEffect (some badSnap) (createEmptyGameState "s") "t" =
        applySnapshot badSnap (List.replicate 9 none) "t" ∧
      ¬ Invariant (loadEffect (some badSnap) (createEmptyGameState "s") "t") := by
  constructor
  · rfl
  · decide

/-- C8: `loadLatest` returns null in every failure case — backend not
configured (`enabled = false`), the fetch throwing a network error, or a
non-success response status — and, being a total function into `Option`,
propagates no error to its caller. -/
theorem loadLatest_failure_none (e : Bool) (f : FetchOutcome)
    (j : JsonOutcome) :
    loadLatest false f = none ∧ loadLatest e FetchOutcome.ferr = none ∧
      loadLatest e (FetchOutcome.fresp false j) = none := by
  refine ⟨rfl, ?_, ?_⟩ <;> cases e <;> rfl

/-- C9: a loaded snapshot replaces the local game state exactly when its
board field is present as an array of length 9; for every other loaded
value (null, missing or non-array board, or board of any other length) the
local game state is left unchanged. -/
theorem loadEffect_board_guard (loaded : Option LoadedRaw) (g : GameState)
    (now : String) :
    (∀ l b, loaded = some l → l.board = some b → b.length = 9 →
        loadEffect loaded g now = applySnapshot l b now) ∧
      ((∀ l b, loaded = some l → l.board = some b → ¬ b.length = 9) →
        loadEffect loaded g now = g) := by
  constructor
  · intro l b hl hb h9
    subst hl
    simp [loadEffect, hb, h9]
  · intro h
    cases loaded with
    | none => rfl
    | some l =>
      cases hb : l.board with
      | none => simp [loadEffect, hb]
      | some b =>
        have h9 := h l b rfl hb
        simp [loadEffect, hb, h9]

/-- A snapshot whose board has only 8 cells, so the load guard rejects
it. -/
def shortSnap : LoadedRaw :=
  { board := some (List.replicate 8 none)
    next_player := none
    winner := none
    is_draw := none
    moves := none
    updated_at := none }

/-- Witness for C9's theorem: a snapshot with an 8-cell board leaves the
state unchanged. -/
theorem loadEffect_board_guard_witness :
    loadEffect (some shortSnap) (createEmptyGameState "s") "t" =
      createEmptyGameState "s" := by
  refine (loadEffect_board_guard (some shortSnap) (createEmptyGameState "s")
    "t").2 ?_
  intro l b hl hb
  injection hl with hl
  subst hl
  rw [show shortSnap.board = some (List.replicate 8 (none : Cell)) from rfl]
    at hb
  injection hb with hb
  subst hb
  decide

/-- C10: the state installed from a loaded snapshot has nextPlayer O exactly
when the snapshot's next_player field is the string "O", and X for every
other value (missing or invalid values included, which the embedding folds
into `none`). -/
theorem applySnapshot_nextPlayer_decode (l : LoadedRaw) (b : List Cell)
    (now : String) :
    ((applySnapshot l b now).nextPlayer = Mark.O ↔
        l.next_player = some "O") ∧
      ((applySnapshot l b now).nextPlayer = Mark.X ↔
        ¬ l.next_player = some "O") := by
  by_cases h : l.next_player = some "O" <;> simp [applySnapshot, h]

/-- A well-formed snapshot naming O as the next player. -/
def oSnap : LoadedRaw :=
  { board := some (List.replicate 9 none)
    next_player := some "O"
    winner := none
    is_draw := none
    moves := none
    updated_at := none }

/-- Witness for C10's theorem at a concrete snapshot. -/
theorem applySnapshot_nextPlayer_decode_witness :
    ((applySnapshot oSnap (List.replicate 9 none) "t").nextPlayer = Mark.O ↔
        oSnap.next_player = some "O") ∧
      ((applySnapshot oSnap (List.replicate 9 none) "t").nextPlayer =
          Mark.X ↔
        ¬ oSnap.next_player = some "O") :=
  applySnapshot_nextPlayer_decode oSnap (List.replicate 9 none) "t"
